import Mathlib

set_option maxHeartbeats 2000000

/-! Shallow embedding of the apm Ansible module (src/apm.py).

Strings are modelled as lists of characters; the external package manager
and the search-path resolver are modelled as an explicit environment that
answers every spawned command with an exit status, captured stdout and
captured stderr.  Every operation returns its result together with the
list of subprocess commands it actually spawned, so that claims about
which subcommands run (and in which order) are statements about that
trace. -/

abbrev Str := List Char

/-- Character list of a string literal. -/
def chars (s : String) : Str := s.data

/-- Python 2 byte-regex whitespace class, as matched by the re module. -/
def isPySpace (c : Char) : Bool :=
  (c == ' ') || (c == '\t') || (c == '\n') || (c == '\r') ||
    (c == Char.ofNat 11) || (c == Char.ofNat 12)

/-- Worker for Python str.splitlines: lines are terminated by CR, LF or
    CRLF, and a trailing fragment is kept only when non-empty. -/
def pySplitlinesGo (cur : Str) : Str → List Str
  | [] => if cur = [] then [] else [cur.reverse]
  | '\r' :: '\n' :: rest => cur.reverse :: pySplitlinesGo [] rest
  | '\r' :: rest => cur.reverse :: pySplitlinesGo [] rest
  | '\n' :: rest => cur.reverse :: pySplitlinesGo [] rest
  | c :: rest => pySplitlinesGo (c :: cur) rest

/-- Python str.splitlines, used on the captured output of the tool. -/
def pySplitlines (data : Str) : List Str := pySplitlinesGo [] data

/-- Worker for Python str.split with an explicit single-space separator:
    the string is cut at every space character, keeping empty pieces. -/
def pySplitSpaceGo (cur : Str) : Str → List Str
  | [] => [cur.reverse]
  | ' ' :: rest => cur.reverse :: pySplitSpaceGo [] rest
  | c :: rest => pySplitSpaceGo (c :: cur) rest

/-- Python str.split with separator a single space character, the split
    that src/apm.py applies to a supplied executable string. -/
def pySplitSpace (s : Str) : List Str := pySplitSpaceGo [] s

/-- Worker for whitespace splitting in the sense of Python str.split with
    no separator: maximal whitespace runs separate tokens, and no empty
    token is produced.  This is the reading of the claim that the
    executable string is split on whitespace. -/
def wsSplitGo (cur : Str) : Str → List Str
  | [] => if cur = [] then [] else [cur.reverse]
  | c :: rest =>
    if isPySpace c then
      if cur = [] then wsSplitGo [] rest else cur.reverse :: wsSplitGo [] rest
    else wsSplitGo (c :: cur) rest

/-- Split on runs of whitespace, dropping empty tokens (spec reading). -/
def wsSplit (s : Str) : List Str := wsSplitGo [] s

/-- Strip the tree-branch glyph prefix of the apm output patterns: one of
    the box-drawing characters U+251C or U+2514 followed by two U+2500
    characters.  Returns the remainder of the line on a match. -/
def treeBranchRest : Str → Option Str
  | '├' :: '─' :: '─' :: rest => some rest
  | '└' :: '─' :: '─' :: rest => some rest
  | _ => none

/-- Match the regex piece backslash-s-plus: at least one whitespace
    character, consumed greedily (nothing after it can match whitespace,
    so maximal munch is exact). -/
def munchSpaces1 : Str → Option Str
  | [] => none
  | c :: rest => if isPySpace c then some (rest.dropWhile isPySpace) else none

/-- Greedy backtracking match of the regex piece (non-whitespace-plus
    captured) followed by a literal at-sign, anchored at the start of the
    input; returns the capture group, preferring the longest capture as
    the re module does. -/
def capBeforeAt : Str → Option Str
  | [] => none
  | c :: rest =>
    if isPySpace c then none
    else
      match capBeforeAt rest with
      | some tok => some (c :: tok)
      | none => if rest.head? = some '@' then some [c] else none

/-- Greedy match of a captured non-whitespace-plus group anchored at the
    start of the input, with nothing required after it. -/
def capSplus : Str → Option Str
  | [] => none
  | c :: rest =>
    if isPySpace c then none
    else
      match capSplus rest with
      | some tok => some (c :: tok)
      | none => some [c]

/-- Capture of the list-subcommand line pattern of src/apm.py: tree-branch
    glyphs, whitespace, then a non-whitespace capture followed by an
    at-sign. -/
def listLineCapture (line : Str) : Option Str :=
  match treeBranchRest line with
  | none => none
  | some r =>
    match munchSpaces1 r with
    | none => none
    | some after => capBeforeAt after

/-- Capture of the outdated-subcommand line pattern of src/apm.py:
    tree-branch glyphs, whitespace, then a non-whitespace capture. -/
def outdatedLineCapture (line : Str) : Option Str :=
  match treeBranchRest line with
  | none => none
  | some r =>
    match munchSpaces1 r with
    | none => none
    | some after => capSplus after

/-- Names parsed from list-subcommand output, in line order, skipping the
    lines the pattern does not match (the loop of Apm.list). -/
def parseInstalled (data : Str) : List Str :=
  (pySplitlines data).filterMap listLineCapture

/-- Names parsed from outdated-subcommand output, in line order, skipping
    non-matching lines and the literal placeholder token (the loop of
    Apm.list_outdated). -/
def parseOutdated (data : Str) : List Str :=
  (pySplitlines data).filterMap (fun l =>
    match outdatedLineCapture l with
    | some tok => if tok = chars "(empty)" then none else some tok
    | none => none)

/-- Spec-side capture for the list pattern: within the maximal
    non-whitespace run, the token standing immediately before the last
    at-sign, required to be non-empty. -/
def specCap (run : Str) : Option Str :=
  match run.reverse.dropWhile (fun c => !(c == '@')) with
  | [] => none
  | _ :: p => if p = [] then none else some p.reverse

/-- Spec-side reading of the list line pattern, written from the claim:
    a line starting with one of the two tree-branch glyph sequences,
    followed by whitespace, capturing the non-whitespace token
    immediately before an at-sign. -/
def specListLine (line : Str) : Option Str :=
  match treeBranchRest line with
  | none => none
  | some r =>
    if r.takeWhile isPySpace = [] then none
    else specCap ((r.dropWhile isPySpace).takeWhile (fun c => !isPySpace c))

/-- Spec-side installed set: captured tokens of matching lines in line
    order, non-matching lines ignored. -/
def specInstalled (data : Str) : List Str :=
  (pySplitlines data).filterMap specListLine

/-- Spec-side reading of the outdated line pattern, written from the
    claim: the first whitespace-delimited token after the two-glyph tree
    prefix of the line. -/
def specOutdatedLine (line : Str) : Option Str :=
  match treeBranchRest line with
  | none => none
  | some r =>
    if r.takeWhile isPySpace = [] then none
    else
      let tok := (r.dropWhile isPySpace).takeWhile (fun c => !isPySpace c)
      if tok = [] then none else some tok

/-- Spec-side outdated set: first tokens of matching lines in line order,
    excluding every token equal to the literal placeholder. -/
def specOutdated (data : Str) : List Str :=
  ((pySplitlines data).filterMap specOutdatedLine).filter
    (fun t => decide (t ≠ chars "(empty)"))

/-- Environment supplying the external world: the search-path resolution
    of the default tool, and the behaviour of every spawned command as
    exit status, captured stdout and captured stderr. -/
structure Env where
  binPath : Option Str
  run : List Str → Int × Str × Str

/-- Desired package state, the choices of the state option. -/
inductive PState
  | present
  | absent
  | latest
deriving DecidableEq

/-- Parameters of one module invocation. -/
structure Params where
  name : Str
  version : Option Str
  executable : Option Str
  state : PState
  checkMode : Bool

/-- Fatal outcomes of an invocation: missing name argument, unresolvable
    default tool, or a checked subprocess exiting non-zero (which
    surfaces the command, the status and the captured output). -/
inductive Failure
  | missingName
  | toolNotFound
  | cmdFailed (cmd : List Str) (rc : Int) (out err : Str)
deriving DecidableEq

/-- The Apm object of src/apm.py after construction. -/
structure ApmObj where
  name : Str
  version : Option Str
  executable : List Str
  nameVersion : Str
deriving DecidableEq

/-- Python truthiness of an optional string argument. -/
def truthyOpt : Option Str → Bool
  | some s => !s.isEmpty
  | none => false

/-- The target identifier: name at version when a truthy version is given,
    bare name otherwise (Apm.__init__). -/
def mkNameVersion (name : Str) (version : Option Str) : Str :=
  if truthyOpt version then name ++ '@' :: version.getD [] else name

/-- Executable resolution of Apm.__init__: a truthy executable string is
    split on the space character; otherwise the default tool is resolved
    from the search path, fatally failing when unresolvable. -/
def resolveExe (env : Env) (executable : Option Str) : Except Failure (List Str) :=
  if truthyOpt executable then Except.ok (pySplitSpace (executable.getD []))
  else
    match env.binPath with
    | some pth => Except.ok [pth]
    | none => Except.error Failure.toolNotFound

/-- Construction of the Apm object (Apm.__init__). -/
def apmInit (env : Env) (name : Str) (version executable : Option Str) :
    Except Failure ApmObj :=
  match resolveExe env executable with
  | Except.error e => Except.error e
  | Except.ok exe =>
      Except.ok { name := name, version := version, executable := exe,
                  nameVersion := mkNameVersion name version }

/-- Full argv of a spawned subcommand: executable prefix, subcommand
    arguments, then the target identifier appended whenever the name is
    truthy (Apm._exec). -/
def spawnCmd (a : ApmObj) (args : List Str) : List Str :=
  a.executable ++ args ++ (if a.name = [] then [] else [a.nameVersion])

/-- Apm._exec: spawns the command unless check mode suppresses it; with
    checked return code a non-zero exit status is fatal, otherwise the
    captured stdout is returned.  The second component is the list of
    commands actually spawned by this call. -/
def apmExec (env : Env) (checkMode : Bool) (a : ApmObj) (args : List Str)
    (runInCheckMode checkRc : Bool) : Except Failure Str × List (List Str) :=
  if !checkMode || (checkMode && runInCheckMode) then
    let r := env.run (spawnCmd a args)
    if checkRc ∧ r.1 ≠ 0 then
      (Except.error (Failure.cmdFailed (spawnCmd a args) r.1 r.2.1 r.2.2),
       [spawnCmd a args])
    else (Except.ok r.2.1, [spawnCmd a args])
  else (Except.ok [], [])

/-- Apm.list: runs the list subcommand (safe in check mode, exit status
    not checked), parses installed names, and reports the target as
    missing exactly when it is not among them. -/
def apmList (env : Env) (cm : Bool) (a : ApmObj) :
    Except Failure (List Str × List Str) × List (List Str) :=
  let r := apmExec env cm a [chars "list"] true false
  match r.1 with
  | Except.error e => (Except.error e, r.2)
  | Except.ok data =>
      let installed := parseInstalled data
      (Except.ok (installed, if a.name ∈ installed then [] else [a.name]), r.2)

/-- Apm.install: mutating, suppressed in check mode, checked exit. -/
def apmInstall (env : Env) (cm : Bool) (a : ApmObj) :
    Except Failure Str × List (List Str) :=
  apmExec env cm a [chars "install"] false true

/-- Apm.update: mutating, suppressed in check mode, checked exit. -/
def apmUpdate (env : Env) (cm : Bool) (a : ApmObj) :
    Except Failure Str × List (List Str) :=
  apmExec env cm a [chars "update"] false true

/-- Apm.uninstall: mutating, suppressed in check mode, checked exit. -/
def apmUninstall (env : Env) (cm : Bool) (a : ApmObj) :
    Except Failure Str × List (List Str) :=
  apmExec env cm a [chars "uninstall"] false true

/-- Apm.list_outdated: runs the outdated subcommand (safe in check mode,
    exit status not checked) and parses outdated names. -/
def apmListOutdated (env : Env) (cm : Bool) (a : ApmObj) :
    Except Failure (List Str) × List (List Str) :=
  let r := apmExec env cm a [chars "outdated"] true false
  match r.1 with
  | Except.error e => (Except.error e, r.2)
  | Except.ok data => (Except.ok (parseOutdated data), r.2)

/-- Branch of main for state present. -/
def runPresent (env : Env) (cm : Bool) (a : ApmObj) :
    Except Failure Bool × List (List Str) :=
  let l := apmList env cm a
  match l.1 with
  | Except.error e => (Except.error e, l.2)
  | Except.ok im =>
    if im.2 ≠ [] then
      let i := apmInstall env cm a
      match i.1 with
      | Except.error e => (Except.error e, l.2 ++ i.2)
      | Except.ok _ => (Except.ok true, l.2 ++ i.2)
    else (Except.ok false, l.2)

/-- Branch of main for state latest. -/
def runLatest (env : Env) (cm : Bool) (a : ApmObj) :
    Except Failure Bool × List (List Str) :=
  let l := apmList env cm a
  match l.1 with
  | Except.error e => (Except.error e, l.2)
  | Except.ok im =>
    let o := apmListOutdated env cm a
    match o.1 with
    | Except.error e => (Except.error e, l.2 ++ o.2)
    | Except.ok outdated =>
      if im.2 ≠ [] then
        let i := apmInstall env cm a
        match i.1 with
        | Except.error e => (Except.error e, l.2 ++ o.2 ++ i.2)
        | Except.ok _ =>
          if outdated ≠ [] then
            let u := apmUpdate env cm a
            match u.1 with
            | Except.error e => (Except.error e, l.2 ++ o.2 ++ i.2 ++ u.2)
            | Except.ok _ => (Except.ok true, l.2 ++ o.2 ++ i.2 ++ u.2)
          else (Except.ok true, l.2 ++ o.2 ++ i.2)
      else
        if outdated ≠ [] then
          let u := apmUpdate env cm a
          match u.1 with
          | Except.error e => (Except.error e, l.2 ++ o.2 ++ u.2)
          | Except.ok _ => (Except.ok true, l.2 ++ o.2 ++ u.2)
        else (Except.ok false, l.2 ++ o.2)

/-- Branch of main for state absent. -/
def runAbsent (env : Env) (cm : Bool) (a : ApmObj) :
    Except Failure Bool × List (List Str) :=
  let l := apmList env cm a
  match l.1 with
  | Except.error e => (Except.error e, l.2)
  | Except.ok im =>
    if a.name ∈ im.1 then
      let u := apmUninstall env cm a
      match u.1 with
      | Except.error e => (Except.error e, l.2 ++ u.2)
      | Except.ok _ => (Except.ok true, l.2 ++ u.2)
    else (Except.ok false, l.2)

/-- The main driver of src/apm.py: validates the name, constructs the Apm
    object, dispatches on the desired state, and reports the changed flag
    (or the fatal failure) together with the full spawn trace. -/
def mainRun (env : Env) (p : Params) : Except Failure Bool × List (List Str) :=
  if p.name = [] then (Except.error Failure.missingName, [])
  else
    match apmInit env p.name p.version p.executable with
    | Except.error e => (Except.error e, [])
    | Except.ok a =>
      match p.state with
      | PState.present => runPresent env p.checkMode a
      | PState.latest => runLatest env p.checkMode a
      | PState.absent => runAbsent env p.checkMode a

/-- Stdout the list subcommand would produce in the given environment. -/
def listData (env : Env) (a : ApmObj) : Str :=
  (env.run (spawnCmd a [chars "list"])).2.1

/-- Installed names the driver observes in the given environment. -/
def obsInstalled (env : Env) (a : ApmObj) : List Str :=
  parseInstalled (listData env a)

/-- Missing list the driver observes in the given environment. -/
def obsMissing (env : Env) (a : ApmObj) : List Str :=
  if a.name ∈ obsInstalled env a then [] else [a.name]

/-- Stdout the outdated subcommand would produce in the environment. -/
def outdatedData (env : Env) (a : ApmObj) : Str :=
  (env.run (spawnCmd a [chars "outdated"])).2.1

/-- Outdated names the driver observes in the given environment. -/
def obsOutdated (env : Env) (a : ApmObj) : List Str :=
  parseOutdated (outdatedData env a)

/-- The changed flag the decision logic yields from the observed sets. -/
def decisionChanged (env : Env) (a : ApmObj) : PState → Bool
  | PState.present => decide (obsMissing env a ≠ [])
  | PState.latest => decide (obsMissing env a ≠ []) || decide (obsOutdated env a ≠ [])
  | PState.absent => decide (a.name ∈ obsInstalled env a)

/-- Same parameters with the check-mode flag replaced. -/
def setCheck (p : Params) (b : Bool) : Params :=
  { name := p.name, version := p.version, executable := p.executable,
    state := p.state, checkMode := b }

deriving instance DecidableEq for Except

/-- Environment in which every command succeeds with empty output. -/
def envOk : Env :=
  { binPath := some (chars "apm"), run := fun _ => (0, [], []) }

/-- Environment in which the target foo is installed and a different
    package bar is reported outdated. -/
def envFooBar : Env :=
  { binPath := some (chars "apm"),
    run := fun cmd =>
      if cmd = [chars "apm", chars "list", chars "foo"] then
        (0, chars "├── foo@1.0", [])
      else if cmd = [chars "apm", chars "outdated", chars "foo"] then
        (0, chars "├── bar", [])
      else (0, [], []) }

/-- Environment in which every command exits with status one; the list
    subcommand still prints an installed entry for foo on stdout. -/
def envRcOne : Env :=
  { binPath := some (chars "apm"), run := fun _ => (1, chars "├── foo@1.0", []) }

/-- Environment in which every command exits with status one and prints
    nothing on stdout. -/
def envAllFail : Env :=
  { binPath := some (chars "apm"), run := fun _ => (1, [], chars "err") }

/-- Environment in which every command reports the package pw installed. -/
def envHasPw : Env :=
  { binPath := some (chars "apm"), run := fun _ => (0, chars "├── pw@1.0", []) }

/-- Environment in which foo is installed and reported outdated, and every
    other command — the update in particular — exits with status one. -/
def envUpdFail : Env :=
  { binPath := some (chars "apm"),
    run := fun cmd =>
      if cmd = [chars "apm", chars "list", chars "foo"] then
        (0, chars "├── foo@1.0", [])
      else if cmd = [chars "apm", chars "outdated", chars "foo"] then
        (0, chars "├── foo", [])
      else (1, [], chars "boom") }

/-- Environment in which pw is installed and every other command — the
    uninstall in particular — exits with status one. -/
def envUninFail : Env :=
  { binPath := some (chars "apm"),
    run := fun cmd =>
      if cmd = [chars "apm", chars "list", chars "pw"] then
        (0, chars "├── pw@1.0", [])
      else (1, [], chars "bad") }

/-- Apm object for the target foo with the default executable. -/
def apmFoo : ApmObj :=
  { name := chars "foo", version := none, executable := [chars "apm"],
    nameVersion := chars "foo" }

/-- Apm object for the target pkg with the default executable. -/
def apmPkg : ApmObj :=
  { name := chars "pkg", version := none, executable := [chars "apm"],
    nameVersion := chars "pkg" }

/-- Apm object for the target pw with the default executable. -/
def apmPw : ApmObj :=
  { name := chars "pw", version := none, executable := [chars "apm"],
    nameVersion := chars "pw" }

/-- Parameters requesting state latest for foo, not in check mode. -/
def pFooLatest : Params :=
  { name := chars "foo", version := none, executable := none,
    state := PState.latest, checkMode := false }

/-- Parameters requesting state latest for pkg, not in check mode. -/
def pPkgLatest : Params :=
  { name := chars "pkg", version := none, executable := none,
    state := PState.latest, checkMode := false }

/-- Parameters requesting state present for foo, not in check mode. -/
def pFooPresent : Params :=
  { name := chars "foo", version := none, executable := none,
    state := PState.present, checkMode := false }

/-- Parameters requesting state present for pkg, not in check mode. -/
def pPkgPresent : Params :=
  { name := chars "pkg", version := none, executable := none,
    state := PState.present, checkMode := false }

/-- Parameters requesting state latest for pkg in check mode. -/
def pPkgLatestCheck : Params :=
  { name := chars "pkg", version := none, executable := none,
    state := PState.latest, checkMode := true }

/-- Parameters requesting state absent for pw, not in check mode. -/
def pPwAbsent : Params :=
  { name := chars "pw", version := none, executable := none,
    state := PState.absent, checkMode := false }

/-! Helper lemmas about the embedded operations. -/

lemma apmExec_info (env : Env) (cm : Bool) (a : ApmObj) (args : List Str) :
    apmExec env cm a args true false =
      (Except.ok (env.run (spawnCmd a args)).2.1, [spawnCmd a args]) := by
  cases cm <;> simp [apmExec]

lemma apmExec_check_mut (env : Env) (a : ApmObj) (args : List Str) (cRc : Bool) :
    apmExec env true a args false cRc = (Except.ok [], []) := by
  simp [apmExec]

lemma apmExec_mut_ok (env : Env) (a : ApmObj) (args : List Str)
    (h : (env.run (spawnCmd a args)).1 = 0) :
    apmExec env false a args false true =
      (Except.ok (env.run (spawnCmd a args)).2.1, [spawnCmd a args]) := by
  simp [apmExec, h]

lemma apmExec_mut_fail (env : Env) (a : ApmObj) (args : List Str)
    (h : (env.run (spawnCmd a args)).1 ≠ 0) :
    apmExec env false a args false true =
      (Except.error (Failure.cmdFailed (spawnCmd a args) (env.run (spawnCmd a args)).1
        (env.run (spawnCmd a args)).2.1 (env.run (spawnCmd a args)).2.2),
       [spawnCmd a args]) := by
  simp [apmExec, h]

lemma apmExec_trace (env : Env) (cm : Bool) (a : ApmObj) (args : List Str)
    (r c : Bool) : ∀ x ∈ (apmExec env cm a args r c).2, x = spawnCmd a args := by
  intro x hx
  simp only [apmExec] at hx
  split at hx
  · split at hx <;> simpa using hx
  · simp at hx

lemma apmExec_sub (env : Env) (cm : Bool) (a : ApmObj) (args : List Str)
    (r c : Bool) (L : List (List Str)) (h : spawnCmd a args ∈ L) :
    (apmExec env cm a args r c).2 ⊆ L := by
  intro x hx
  rw [apmExec_trace env cm a args r c x hx]
  exact h

lemma apmList_eq (env : Env) (cm : Bool) (a : ApmObj) :
    apmList env cm a =
      (Except.ok (obsInstalled env a, obsMissing env a),
       [spawnCmd a [chars "list"]]) := by
  simp [apmList, apmExec_info, obsInstalled, obsMissing, listData]

lemma apmListOutdated_eq (env : Env) (cm : Bool) (a : ApmObj) :
    apmListOutdated env cm a =
      (Except.ok (obsOutdated env a), [spawnCmd a [chars "outdated"]]) := by
  simp [apmListOutdated, apmExec_info, obsOutdated, outdatedData]

lemma runPresent_check (env : Env) (a : ApmObj) :
    runPresent env true a =
      (Except.ok (decide (obsMissing env a ≠ [])), [spawnCmd a [chars "list"]]) := by
  by_cases h : obsMissing env a ≠ [] <;>
    simp [runPresent, apmList_eq, apmInstall, apmExec_check_mut, h]

lemma runPresent_run (env : Env) (a : ApmObj)
    (hi : (env.run (spawnCmd a [chars "install"])).1 = 0) :
    runPresent env false a =
      (Except.ok (decide (obsMissing env a ≠ [])),
        [spawnCmd a [chars "list"]] ++
          (if obsMissing env a ≠ [] then [spawnCmd a [chars "install"]] else [])) := by
  by_cases h : obsMissing env a ≠ [] <;>
    simp [runPresent, apmList_eq, apmInstall, apmExec_mut_ok _ _ _ hi, h]

lemma runLatest_check (env : Env) (a : ApmObj) :
    runLatest env true a =
      (Except.ok (decide (obsMissing env a ≠ []) || decide (obsOutdated env a ≠ [])),
        [spawnCmd a [chars "list"], spawnCmd a [chars "outdated"]]) := by
  by_cases h1 : obsMissing env a ≠ [] <;> by_cases h2 : obsOutdated env a ≠ [] <;>
    simp [runLatest, apmList_eq, apmListOutdated_eq, apmInstall, apmUpdate,
      apmExec_check_mut, h1, h2]

lemma runLatest_run (env : Env) (a : ApmObj)
    (hi : (env.run (spawnCmd a [chars "install"])).1 = 0)
    (hu : (env.run (spawnCmd a [chars "update"])).1 = 0) :
    runLatest env false a =
      (Except.ok (decide (obsMissing env a ≠ []) || decide (obsOutdated env a ≠ [])),
        [spawnCmd a [chars "list"], spawnCmd a [chars "outdated"]] ++
          (if obsMissing env a ≠ [] then [spawnCmd a [chars "install"]] else []) ++
          (if obsOutdated env a ≠ [] then [spawnCmd a [chars "update"]] else [])) := by
  by_cases h1 : obsMissing env a ≠ [] <;> by_cases h2 : obsOutdated env a ≠ [] <;>
    simp [runLatest, apmList_eq, apmListOutdated_eq, apmInstall, apmUpdate,
      apmExec_mut_ok _ _ _ hi, apmExec_mut_ok _ _ _ hu, h1, h2]

lemma runAbsent_check (env : Env) (a : ApmObj) :
    runAbsent env true a =
      (Except.ok (decide (a.name ∈ obsInstalled env a)), [spawnCmd a [chars "list"]]) := by
  by_cases h : a.name ∈ obsInstalled env a <;>
    simp [runAbsent, apmList_eq, apmUninstall, apmExec_check_mut, h]

lemma runAbsent_run (env : Env) (a : ApmObj)
    (hu : (env.run (spawnCmd a [chars "uninstall"])).1 = 0) :
    runAbsent env false a =
      (Except.ok (decide (a.name ∈ obsInstalled env a)),
        [spawnCmd a [chars "list"]] ++
          (if a.name ∈ obsInstalled env a then [spawnCmd a [chars "uninstall"]] else [])) := by
  by_cases h : a.name ∈ obsInstalled env a <;>
    simp [runAbsent, apmList_eq, apmUninstall, apmExec_mut_ok _ _ _ hu, h]

lemma mainRun_state (env : Env) (p : Params) (a : ApmObj) (hn : p.name ≠ [])
    (ha : apmInit env p.name p.version p.executable = Except.ok a) :
    mainRun env p =
      match p.state with
      | PState.present => runPresent env p.checkMode a
      | PState.latest => runLatest env p.checkMode a
      | PState.absent => runAbsent env p.checkMode a := by
  simp [mainRun, hn, ha]

lemma apmInit_ok (env : Env) (n : Str) (v e : Option Str) (a : ApmObj)
    (h : apmInit env n v e = Except.ok a) :
    a.name = n ∧ a.version = v ∧ a.nameVersion = mkNameVersion n v := by
  simp only [apmInit] at h
  split at h
  · exact absurd h (by simp)
  · rw [Except.ok.injEq] at h
    subst h
    exact ⟨rfl, rfl, rfl⟩


/-! Equivalence of the greedy regex matchers with the spec-side readings. -/

lemma dropWhile_head_false {α : Type} (p : α → Bool) (l : List α) (c : α)
    (t : List α) (h : l.dropWhile p = c :: t) : p c = false := by
  have hne : l.dropWhile p ≠ [] := by simp [h]
  have hh := List.head_dropWhile_not p l hne
  simpa [h] using hh

lemma capSplus_cons (c : Char) (rest : Str) :
    capSplus (c :: rest) =
      if isPySpace c then none
      else some (c :: rest.takeWhile (fun d => !isPySpace d)) := by
  induction rest generalizing c with
  | nil => simp [capSplus]
  | cons d t ih =>
    rw [capSplus.eq_2, ih d]
    by_cases hc : isPySpace c <;> by_cases hd : isPySpace d <;>
      simp [hc, hd, List.takeWhile_cons]

lemma specCap_cons (c : Char) (r : Str) :
    specCap (c :: r) =
      match specCap r with
      | some tok => some (c :: tok)
      | none => if r.head? = some '@' then some [c] else none := by
  rcases hd : r.reverse.dropWhile (fun x => !(x == '@')) with _ | ⟨y, p⟩
  · have hall : ∀ x ∈ r, ¬x = '@' := by
      intro x hx
      have := List.dropWhile_eq_nil_iff.mp hd x (by simpa using hx)
      simpa using this
    have hhead : ¬r.head? = some '@' := by
      rcases r with _ | ⟨z, t⟩
      · simp
      · have := hall z (by simp)
        simp [this]
    by_cases hc : c = '@'
    · subst hc
      simp [specCap, List.reverse_cons, List.dropWhile_append, hd,
        List.dropWhile_cons, hhead]
    · simp [specCap, List.reverse_cons, List.dropWhile_append, hd,
        List.dropWhile_cons, hc, hhead]
  · have hy : y = '@' := by
      have := dropWhile_head_false (fun x => !(x == '@')) r.reverse y p hd
      simpa using this
    subst hy
    by_cases hp : p = []
    · subst hp
      have hr : r.reverse = r.reverse.takeWhile (fun x => !(x == '@')) ++ ['@'] := by
        conv_lhs => rw [← List.takeWhile_append_dropWhile (fun x => !(x == '@')) r.reverse]
        rw [hd]
      have hrr : r = '@' :: (r.reverse.takeWhile (fun x => !(x == '@'))).reverse := by
        have := congrArg List.reverse hr
        simpa using this
      have hrhead : r.head? = some '@' := by rw [hrr]; rfl
      simp [specCap, List.reverse_cons, List.dropWhile_append, hd, hrhead]
    · simp [specCap, List.reverse_cons, List.dropWhile_append, hd, hp]

lemma capBeforeAt_eq (cs : Str) :
    capBeforeAt cs = specCap (cs.takeWhile (fun c => !isPySpace c)) := by
  induction cs with
  | nil => rfl
  | cons c t ih =>
    by_cases hc : isPySpace c
    · simp [capBeforeAt, hc, List.takeWhile_cons, specCap]
    · have hhead : (t.takeWhile (fun c => !isPySpace c)).head? = some '@' ↔
          t.head? = some '@' := by
        rcases t with _ | ⟨d, t2⟩
        · simp
        · by_cases hdd : isPySpace d
          · have hda : ¬d = '@' := by
              intro h
              rw [h] at hdd
              exact absurd hdd (by decide)
            simp [List.takeWhile_cons, hdd, hda]
          · simp [List.takeWhile_cons, hdd]
      have htw : (c :: t).takeWhile (fun c => !isPySpace c) =
          c :: t.takeWhile (fun c => !isPySpace c) := by
        simp [List.takeWhile_cons, hc]
      rw [htw, specCap_cons, ← ih]
      cases hcb : capBeforeAt t with
      | some tok => simp [capBeforeAt, hc, hcb]
      | none => simp [capBeforeAt, hc, hcb, hhead]

lemma listLineCapture_eq (line : Str) : listLineCapture line = specListLine line := by
  simp only [listLineCapture, specListLine]
  cases treeBranchRest line with
  | none => rfl
  | some r =>
    cases r with
    | nil => simp [munchSpaces1]
    | cons c rest =>
      by_cases hc : isPySpace c
      · simp [munchSpaces1, hc, List.takeWhile_cons, List.dropWhile_cons,
          capBeforeAt_eq]
      · simp [munchSpaces1, hc, List.takeWhile_cons]

lemma outdatedLineCapture_eq (line : Str) :
    outdatedLineCapture line = specOutdatedLine line := by
  simp only [outdatedLineCapture, specOutdatedLine]
  cases treeBranchRest line with
  | none => rfl
  | some r =>
    cases r with
    | nil => simp [munchSpaces1]
    | cons c rest =>
      by_cases hc : isPySpace c
      · simp only [munchSpaces1, hc, if_true, List.takeWhile_cons,
          List.dropWhile_cons, if_pos rfl]
        rcases hafter : rest.dropWhile isPySpace with _ | ⟨d, t2⟩
        · simp [capSplus, hc]
        · have hdns : isPySpace d = false :=
            dropWhile_head_false isPySpace rest d t2 hafter
          simp [capSplus_cons, hdns, List.takeWhile_cons, hc]
      · simp [munchSpaces1, hc, List.takeWhile_cons]

lemma parseInstalled_eq (data : Str) : parseInstalled data = specInstalled data := by
  simp only [parseInstalled, specInstalled]
  exact List.filterMap_congr (fun x _ => listLineCapture_eq x)

lemma parseOutdated_eq (data : Str) : parseOutdated data = specOutdated data := by
  simp only [parseOutdated, specOutdated, List.filter_filterMap]
  refine List.filterMap_congr (fun x _ => ?h)
  rw [outdatedLineCapture_eq]
  cases specOutdatedLine x with
  | none => rfl
  | some tok =>
    by_cases he : tok = chars "(empty)"
    · simp [he, Option.filter]
    · simp [he, Option.filter]

/-! Trace and changed-flag helper lemmas about the driver branches. -/

lemma spawnCmd_getLast (a : ApmObj) (args : List Str) (h : a.name ≠ []) :
    (spawnCmd a args).getLast? = some a.nameVersion := by
  rw [spawnCmd, if_neg h]
  exact List.getLast?_concat _

lemma spawnCmd_arg_eq (a : ApmObj) (w1 w2 : Str)
    (h : spawnCmd a [w1] = spawnCmd a [w2]) : w1 = w2 := by
  simpa [spawnCmd] using h

lemma mem_spawn_list_getLast {a : ApmObj} (h : a.name ≠ [])
    (argsList : List (List Str)) (cmd : List Str)
    (hc : cmd ∈ argsList.map (spawnCmd a)) :
    cmd.getLast? = some a.nameVersion := by
  rcases List.mem_map.mp hc with ⟨args, _, heq⟩
  rw [← heq]
  exact spawnCmd_getLast a args h

lemma runPresent_trace (env : Env) (cm : Bool) (a : ApmObj) :
    (runPresent env cm a).2 ⊆
      [spawnCmd a [chars "list"], spawnCmd a [chars "install"]] := by
  have hi := apmExec_sub env cm a [chars "install"] false true
    [spawnCmd a [chars "list"], spawnCmd a [chars "install"]] (by simp)
  simp only [runPresent, apmList_eq, apmInstall]
  repeat' split
  all_goals simp_all [List.append_subset]

lemma runLatest_trace (env : Env) (cm : Bool) (a : ApmObj) :
    (runLatest env cm a).2 ⊆
      [spawnCmd a [chars "list"], spawnCmd a [chars "outdated"],
       spawnCmd a [chars "install"], spawnCmd a [chars "update"]] := by
  have hi := apmExec_sub env cm a [chars "install"] false true
    [spawnCmd a [chars "list"], spawnCmd a [chars "outdated"],
     spawnCmd a [chars "install"], spawnCmd a [chars "update"]] (by simp)
  have hu := apmExec_sub env cm a [chars "update"] false true
    [spawnCmd a [chars "list"], spawnCmd a [chars "outdated"],
     spawnCmd a [chars "install"], spawnCmd a [chars "update"]] (by simp)
  simp only [runLatest, apmList_eq, apmListOutdated_eq, apmInstall, apmUpdate]
  repeat' split
  all_goals simp_all [List.append_subset]

lemma runAbsent_trace (env : Env) (cm : Bool) (a : ApmObj) :
    (runAbsent env cm a).2 ⊆
      [spawnCmd a [chars "list"], spawnCmd a [chars "uninstall"]] := by
  have hu := apmExec_sub env cm a [chars "uninstall"] false true
    [spawnCmd a [chars "list"], spawnCmd a [chars "uninstall"]] (by simp)
  simp only [runAbsent, apmList_eq, apmUninstall]
  repeat' split
  all_goals simp_all [List.append_subset]

lemma runPresent_changed (env : Env) (a : ApmObj) (c : Bool) (tr : List (List Str))
    (h : runPresent env false a = (Except.ok c, tr)) :
    c = decide (obsMissing env a ≠ []) := by
  by_cases hm : obsMissing env a ≠ []
  · simp only [runPresent, apmList_eq, if_pos hm] at h
    rcases hins : (apmInstall env false a).1 with e | s <;> rw [hins] at h <;>
      simp_all
  · simp only [runPresent, apmList_eq, if_neg hm] at h
    simp_all

lemma runLatest_changed (env : Env) (a : ApmObj) (c : Bool) (tr : List (List Str))
    (h : runLatest env false a = (Except.ok c, tr)) :
    c = (decide (obsMissing env a ≠ []) || decide (obsOutdated env a ≠ [])) := by
  by_cases hm : obsMissing env a ≠ [] <;> by_cases ho : obsOutdated env a ≠ []
  · simp only [runLatest, apmList_eq, apmListOutdated_eq, if_pos hm, if_pos ho] at h
    rcases hins : (apmInstall env false a).1 with e | s <;> rw [hins] at h
    · simp_all
    · rcases hupd : (apmUpdate env false a).1 with e | s2 <;> rw [hupd] at h <;>
        simp_all
  · simp only [runLatest, apmList_eq, apmListOutdated_eq, if_pos hm, if_neg ho] at h
    rcases hins : (apmInstall env false a).1 with e | s <;> rw [hins] at h <;>
      simp_all
  · simp only [runLatest, apmList_eq, apmListOutdated_eq, if_neg hm, if_pos ho] at h
    rcases hupd : (apmUpdate env false a).1 with e | s <;> rw [hupd] at h <;>
      simp_all
  · simp only [runLatest, apmList_eq, apmListOutdated_eq, if_neg hm, if_neg ho] at h
    simp_all

lemma runAbsent_changed (env : Env) (a : ApmObj) (c : Bool) (tr : List (List Str))
    (h : runAbsent env false a = (Except.ok c, tr)) :
    c = decide (a.name ∈ obsInstalled env a) := by
  by_cases hm : a.name ∈ obsInstalled env a
  · simp only [runAbsent, apmList_eq, if_pos hm] at h
    rcases huni : (apmUninstall env false a).1 with e | s <;> rw [huni] at h <;>
      simp_all
  · simp only [runAbsent, apmList_eq, if_neg hm] at h
    simp_all

/-! Claims. -/

/-- Claim C1 counterexample: state latest with the target foo installed
    (so not missing) and a different package bar in the parsed outdated
    set; neither condition of the claim holds — foo is not missing and
    foo is not in the outdated set — yet the driver invokes update and
    reports changed true, refuting the claim that changed is false when
    neither condition holds. -/
theorem C1_counterexample :
    apmInit envFooBar pFooLatest.name pFooLatest.version pFooLatest.executable
        = Except.ok apmFoo
    ∧ obsMissing envFooBar apmFoo = []
    ∧ chars "foo" ∉ obsOutdated envFooBar apmFoo
    ∧ mainRun envFooBar pFooLatest =
        (Except.ok true,
         [spawnCmd apmFoo [chars "list"], spawnCmd apmFoo [chars "outdated"],
          spawnCmd apmFoo [chars "update"]]) := by
  decide

/-- Claim C1 (amended): for state latest, not in check mode, with a
    truthy name and successful mutating commands: install is invoked
    exactly when the target is missing, update is invoked exactly when
    the parsed outdated set is non-empty (whether or not it contains the
    target), install precedes update when both fire, and changed is true
    exactly when the target is missing or the outdated set is non-empty. -/
theorem C1_latest_behavior (env : Env) (p : Params) (a : ApmObj)
    (hs : p.state = PState.latest) (hc : p.checkMode = false) (hn : p.name ≠ [])
    (ha : apmInit env p.name p.version p.executable = Except.ok a)
    (hi : (env.run (spawnCmd a [chars "install"])).1 = 0)
    (hu : (env.run (spawnCmd a [chars "update"])).1 = 0) :
    mainRun env p =
      (Except.ok (decide (obsMissing env a ≠ []) || decide (obsOutdated env a ≠ [])),
        [spawnCmd a [chars "list"], spawnCmd a [chars "outdated"]] ++
          (if obsMissing env a ≠ [] then [spawnCmd a [chars "install"]] else []) ++
          (if obsOutdated env a ≠ [] then [spawnCmd a [chars "update"]] else [])) := by
  rw [mainRun_state env p a hn ha, hs, hc]
  exact runLatest_run env a hi hu

/-- Witness for C1: in the environment where every command succeeds with
    empty output, the target pkg is missing and nothing is outdated, so
    the driver runs list, outdated and install, and reports changed. -/
theorem C1_latest_behavior_witness :
    mainRun envOk pPkgLatest =
      (Except.ok true,
       [spawnCmd apmPkg [chars "list"], spawnCmd apmPkg [chars "outdated"],
        spawnCmd apmPkg [chars "install"]]) := by
  have h := C1_latest_behavior envOk pPkgLatest apmPkg rfl rfl (by decide)
    (by decide) (by decide) (by decide)
  exact h.trans (by decide)

/-- Claim C2: Apm.list always succeeds, spawns exactly the list command,
    and returns as installed exactly the tokens captured by the spec-side
    reading of the tree-branch pattern (lines starting with one of the
    two glyph sequences, then whitespace, capturing the non-whitespace
    token immediately before the at-sign), in line order, ignoring
    non-matching lines; missing is the singleton name when the name is
    not among the parsed names and empty otherwise; in particular the
    line for project-manager at 3.3.2 yields project-manager. -/
theorem C2_list_parsing :
    (∀ (env : Env) (cm : Bool) (a : ApmObj),
        apmList env cm a =
          (Except.ok (specInstalled (listData env a),
            if a.name ∈ specInstalled (listData env a) then [] else [a.name]),
           [spawnCmd a [chars "list"]]))
    ∧ chars "project-manager" ∈ parseInstalled (chars "├── project-manager@3.3.2") := by
  constructor
  · intro env cm a
    rw [apmList_eq]
    simp [obsInstalled, obsMissing, parseInstalled_eq]
  · decide

/-- Claim C3: Apm.list_outdated always succeeds, spawns exactly the
    outdated command, and returns exactly the first whitespace-delimited
    token after the two-glyph tree prefix of each matching line, in line
    order, excluding every token equal to the literal placeholder; in
    particular an output consisting of the placeholder line yields the
    empty outdated set. -/
theorem C3_outdated_parsing :
    (∀ (env : Env) (cm : Bool) (a : ApmObj),
        apmListOutdated env cm a =
          (Except.ok (specOutdated (outdatedData env a)),
           [spawnCmd a [chars "outdated"]]))
    ∧ parseOutdated (chars "└── (empty)") = [] := by
  constructor
  · intro env cm a
    rw [apmListOutdated_eq]
    simp [obsOutdated, parseOutdated_eq]
  · rfl

/-- Claim C4 counterexample: when the list subcommand exits with status
    one but still prints a parseable line for foo, Apm.list does not fail
    and parses the output as usual, so the installed set is not empty —
    refuting the claim that a non-zero exit status is treated as empty
    output. -/
theorem C4_counterexample :
    (envRcOne.run (spawnCmd apmFoo [chars "list"])).1 = 1
    ∧ apmList envRcOne false apmFoo =
        (Except.ok ([chars "foo"], []), [spawnCmd apmFoo [chars "list"]])
    ∧ obsInstalled envRcOne apmFoo ≠ [] := by
  decide

/-- Claim C4 (amended): a non-zero exit status from the list or outdated
    subcommand never aborts — the captured output is parsed as usual (so
    the sets are empty exactly when nothing parseable was printed) —
    whereas a non-zero exit status from a mutating subcommand (install in
    a present run, update in a latest run, uninstall in an absent run)
    aborts the invocation with a fatal failure carrying the captured
    output. -/
theorem C4_exit_status (env : Env) (a : ApmObj) (cm : Bool) :
    (apmList env cm a).1 = Except.ok (obsInstalled env a, obsMissing env a)
    ∧ (apmListOutdated env cm a).1 = Except.ok (obsOutdated env a)
    ∧ (∀ p : Params, p.state = PState.present → p.checkMode = false →
        p.name ≠ [] →
        apmInit env p.name p.version p.executable = Except.ok a →
        obsMissing env a ≠ [] →
        (env.run (spawnCmd a [chars "install"])).1 ≠ 0 →
        mainRun env p =
          (Except.error (Failure.cmdFailed (spawnCmd a [chars "install"])
              (env.run (spawnCmd a [chars "install"])).1
              (env.run (spawnCmd a [chars "install"])).2.1
              (env.run (spawnCmd a [chars "install"])).2.2),
           [spawnCmd a [chars "list"], spawnCmd a [chars "install"]]))
    ∧ (∀ p : Params, p.state = PState.latest → p.checkMode = false →
        p.name ≠ [] →
        apmInit env p.name p.version p.executable = Except.ok a →
        obsMissing env a = [] →
        obsOutdated env a ≠ [] →
        (env.run (spawnCmd a [chars "update"])).1 ≠ 0 →
        mainRun env p =
          (Except.error (Failure.cmdFailed (spawnCmd a [chars "update"])
              (env.run (spawnCmd a [chars "update"])).1
              (env.run (spawnCmd a [chars "update"])).2.1
              (env.run (spawnCmd a [chars "update"])).2.2),
           [spawnCmd a [chars "list"], spawnCmd a [chars "outdated"],
            spawnCmd a [chars "update"]]))
    ∧ (∀ p : Params, p.state = PState.absent → p.checkMode = false →
        p.name ≠ [] →
        apmInit env p.name p.version p.executable = Except.ok a →
        a.name ∈ obsInstalled env a →
        (env.run (spawnCmd a [chars "uninstall"])).1 ≠ 0 →
        mainRun env p =
          (Except.error (Failure.cmdFailed (spawnCmd a [chars "uninstall"])
              (env.run (spawnCmd a [chars "uninstall"])).1
              (env.run (spawnCmd a [chars "uninstall"])).2.1
              (env.run (spawnCmd a [chars "uninstall"])).2.2),
           [spawnCmd a [chars "list"], spawnCmd a [chars "uninstall"]])) := by
  refine ⟨by rw [apmList_eq], by rw [apmListOutdated_eq], ?ist, ?upd, ?uni⟩
  · intro p hs hc hn ha hmiss hrc
    rw [mainRun_state env p a hn ha, hs, hc]
    simp only [runPresent, apmList_eq, if_pos hmiss, apmInstall,
      apmExec_mut_fail env a [chars "install"] hrc]
    simp
  · intro p hs hc hn ha hm0 ho hrc
    rw [mainRun_state env p a hn ha, hs, hc]
    simp only [runLatest, apmList_eq, apmListOutdated_eq, apmUpdate,
      apmExec_mut_fail env a [chars "update"] hrc]
    rw [if_neg (by simp [hm0]), if_pos ho]
    simp
  · intro p hs hc hn ha hin hrc
    rw [mainRun_state env p a hn ha, hs, hc]
    simp only [runAbsent, apmList_eq, if_pos hin, apmUninstall,
      apmExec_mut_fail env a [chars "uninstall"] hrc]
    simp

/-- Witness for C4: three concrete failing runs — a present request whose
    install fails, a latest request whose update fails, and an absent
    request whose uninstall fails — each aborting with the captured
    output surfaced in the fatal failure. -/
theorem C4_exit_status_witness :
    mainRun envAllFail pFooPresent =
      (Except.error (Failure.cmdFailed (spawnCmd apmFoo [chars "install"])
          1 [] (chars "err")),
       [spawnCmd apmFoo [chars "list"], spawnCmd apmFoo [chars "install"]])
    ∧ mainRun envUpdFail pFooLatest =
      (Except.error (Failure.cmdFailed (spawnCmd apmFoo [chars "update"])
          1 [] (chars "boom")),
       [spawnCmd apmFoo [chars "list"], spawnCmd apmFoo [chars "outdated"],
        spawnCmd apmFoo [chars "update"]])
    ∧ mainRun envUninFail pPwAbsent =
      (Except.error (Failure.cmdFailed (spawnCmd apmPw [chars "uninstall"])
          1 [] (chars "bad")),
       [spawnCmd apmPw [chars "list"], spawnCmd apmPw [chars "uninstall"]]) := by
  refine ⟨?w1, ?w2, ?w3⟩
  · have h := (C4_exit_status envAllFail apmFoo false).2.2.1 pFooPresent rfl rfl
      (by decide) (by decide) (by decide) (by decide)
    exact h.trans (by decide)
  · have h := (C4_exit_status envUpdFail apmFoo false).2.2.2.1 pFooLatest rfl rfl
      (by decide) (by decide) (by decide) (by decide) (by decide)
    exact h.trans (by decide)
  · have h := (C4_exit_status envUninFail apmPw false).2.2.2.2 pPwAbsent rfl rfl
      (by decide) (by decide) (by decide) (by decide)
    exact h.trans (by decide)

lemma not_mem_spawn_pair {a : ApmObj} {w u v : Str} (hu : w ≠ u) (hv : w ≠ v)
    {tr : List (List Str)}
    (htr : tr ⊆ [spawnCmd a [u], spawnCmd a [v]]) :
    spawnCmd a [w] ∉ tr := by
  intro hmem
  have h2 := htr hmem
  simp only [List.mem_cons, List.not_mem_nil, or_false] at h2
  rcases h2 with h2 | h2
  · exact hu (spawnCmd_arg_eq a w u h2)
  · exact hv (spawnCmd_arg_eq a w v h2)

lemma not_mem_spawn_quad {a : ApmObj} {w u v x y : Str}
    (hu : w ≠ u) (hv : w ≠ v) (hx : w ≠ x) (hy : w ≠ y)
    {tr : List (List Str)}
    (htr : tr ⊆ [spawnCmd a [u], spawnCmd a [v], spawnCmd a [x], spawnCmd a [y]]) :
    spawnCmd a [w] ∉ tr := by
  intro hmem
  have h2 := htr hmem
  simp only [List.mem_cons, List.not_mem_nil, or_false] at h2
  rcases h2 with h2 | h2 | h2 | h2
  · exact hu (spawnCmd_arg_eq a w u h2)
  · exact hv (spawnCmd_arg_eq a w v h2)
  · exact hx (spawnCmd_arg_eq a w x h2)
  · exact hy (spawnCmd_arg_eq a w y h2)

/-- Claim C5: in check mode the driver still spawns the informational
    list (and, for latest, outdated) subcommands, spawns no mutating
    subcommand at all — every mutating operation returns empty output
    without running a subprocess — and reports exactly the changed flag
    a non-check run over the same observed sets would report. -/
theorem C5_check_mode (env : Env) (p : Params) (a : ApmObj)
    (hc : p.checkMode = true) (hn : p.name ≠ [])
    (ha : apmInit env p.name p.version p.executable = Except.ok a) :
    mainRun env p =
      (Except.ok (decisionChanged env a p.state),
        match p.state with
        | PState.present => [spawnCmd a [chars "list"]]
        | PState.latest => [spawnCmd a [chars "list"], spawnCmd a [chars "outdated"]]
        | PState.absent => [spawnCmd a [chars "list"]])
    ∧ (∀ (args : List Str) (cRc : Bool),
        apmExec env true a args false cRc = (Except.ok [], []))
    ∧ (∀ (c : Bool) (tr : List (List Str)),
        mainRun env (setCheck p false) = (Except.ok c, tr) →
        c = decisionChanged env a p.state) := by
  refine ⟨?run, fun args cRc => apmExec_check_mut env a args cRc, ?agree⟩
  · rw [mainRun_state env p a hn ha, hc]
    cases hs : p.state
    · exact runPresent_check env a
    · exact runAbsent_check env a
    · exact runLatest_check env a
  · intro c tr h
    have hn2 : (setCheck p false).name ≠ [] := hn
    have ha2 : apmInit env (setCheck p false).name (setCheck p false).version
        (setCheck p false).executable = Except.ok a := ha
    rw [mainRun_state env (setCheck p false) a hn2 ha2] at h
    simp only [setCheck] at h
    cases hs : p.state
    · rw [hs] at h
      exact runPresent_changed env a c tr h
    · rw [hs] at h
      exact runAbsent_changed env a c tr h
    · rw [hs] at h
      exact runLatest_changed env a c tr h

/-- Witness for C5: a check-mode latest request for pkg in the empty
    environment runs only list and outdated and reports changed. -/
theorem C5_check_mode_witness :
    mainRun envOk pPkgLatestCheck =
      (Except.ok true,
       [spawnCmd apmPkg [chars "list"], spawnCmd apmPkg [chars "outdated"]]) := by
  have h := (C5_check_mode envOk pPkgLatestCheck apmPkg rfl (by decide) (by decide)).1
  exact h.trans (by decide)

/-- Claim C6: for state present, not in check mode, with a successful
    install command: when the target is missing beforehand the driver
    spawns list then exactly one install and reports changed true; when
    the target is already present it spawns no mutating subcommand and
    reports changed false. -/
theorem C6_present_state (env : Env) (p : Params) (a : ApmObj)
    (hs : p.state = PState.present) (hc : p.checkMode = false) (hn : p.name ≠ [])
    (ha : apmInit env p.name p.version p.executable = Except.ok a)
    (hi : (env.run (spawnCmd a [chars "install"])).1 = 0) :
    mainRun env p =
      (Except.ok (decide (obsMissing env a ≠ [])),
        [spawnCmd a [chars "list"]] ++
          (if obsMissing env a ≠ [] then [spawnCmd a [chars "install"]] else [])) := by
  rw [mainRun_state env p a hn ha, hs, hc]
  exact runPresent_run env a hi

/-- Witness for C6: pkg is absent in the empty environment, so the driver
    spawns list then install and reports changed. -/
theorem C6_present_state_witness :
    mainRun envOk pPkgPresent =
      (Except.ok true,
       [spawnCmd apmPkg [chars "list"], spawnCmd apmPkg [chars "install"]]) := by
  have h := C6_present_state envOk pPkgPresent apmPkg rfl rfl (by decide)
    (by decide) (by decide)
  exact h.trans (by decide)

/-- Claim C7: for state absent, not in check mode, with a successful
    uninstall command: when the target name is in the parsed installed
    set the driver spawns list then exactly one uninstall and reports
    changed true; otherwise it spawns no mutating subcommand and reports
    changed false. -/
theorem C7_absent_state (env : Env) (p : Params) (a : ApmObj)
    (hs : p.state = PState.absent) (hc : p.checkMode = false) (hn : p.name ≠ [])
    (ha : apmInit env p.name p.version p.executable = Except.ok a)
    (hu : (env.run (spawnCmd a [chars "uninstall"])).1 = 0) :
    mainRun env p =
      (Except.ok (decide (a.name ∈ obsInstalled env a)),
        [spawnCmd a [chars "list"]] ++
          (if a.name ∈ obsInstalled env a then [spawnCmd a [chars "uninstall"]]
           else [])) := by
  rw [mainRun_state env p a hn ha, hs, hc]
  exact runAbsent_run env a hu

/-- Witness for C7: pw is installed in its environment, so the absent
    request spawns list then uninstall and reports changed. -/
theorem C7_absent_state_witness :
    mainRun envHasPw pPwAbsent =
      (Except.ok true,
       [spawnCmd apmPw [chars "list"], spawnCmd apmPw [chars "uninstall"]]) := by
  have h := C7_absent_state envHasPw pPwAbsent apmPw rfl rfl (by decide)
    (by decide) (by decide)
  exact h.trans (by decide)

/-- Claim C8 counterexample: the supplied executable string with two
    consecutive spaces is split on the single space character, producing
    an empty argv entry, which differs from splitting on whitespace —
    refuting the claim that the executable is split on whitespace. -/
theorem C8_counterexample :
    Except.map ApmObj.executable
        (apmInit envOk (chars "foo") none (some (chars "a  b")))
      = Except.ok [chars "a", [], chars "b"]
    ∧ wsSplit (chars "a  b") = [chars "a", chars "b"]
    ∧ ([chars "a", [], chars "b"] : List Str) ≠ [chars "a", chars "b"] := by
  decide

/-- Claim C8 (amended): a truthy supplied executable string is split on
    the single space character into the argv prefix used (as a prefix)
    for every spawned command; an absent executable resolves the default
    tool from the search path, failing with the tool-not-found error when
    unresolvable. -/
theorem C8_executable_resolution (env : Env) (name : Str) (version : Option Str) :
    (∀ e : Str, e ≠ [] →
        Except.map ApmObj.executable (apmInit env name version (some e))
          = Except.ok (pySplitSpace e))
    ∧ (env.binPath = none →
        apmInit env name version none = Except.error Failure.toolNotFound)
    ∧ (∀ bp : Str, env.binPath = some bp →
        Except.map ApmObj.executable (apmInit env name version none)
          = Except.ok [bp])
    ∧ (∀ (a : ApmObj) (args : List Str),
        (spawnCmd a args).take a.executable.length = a.executable) := by
  refine ⟨?e1, ?e2, ?e3, ?e4⟩
  · intro e he
    simp [apmInit, resolveExe, truthyOpt, he, Except.map]
  · intro hb
    simp [apmInit, resolveExe, truthyOpt, hb]
  · intro bp hb
    simp [apmInit, resolveExe, truthyOpt, hb, Except.map]
  · intro a args
    rw [spawnCmd, List.append_assoc]
    exact List.take_left _ _

/-- Witness for C8: a space-separated executable string yields the split
    argv prefix. -/
theorem C8_executable_resolution_witness :
    Except.map ApmObj.executable
        (apmInit envOk (chars "pkg") none (some (chars "x y")))
      = Except.ok [chars "x", chars "y"] := by
  have h := (C8_executable_resolution envOk (chars "pkg") none).1
    (chars "x y") (by decide)
  exact h.trans (by decide)

/-- Claim C9: with a truthy name, every spawned subprocess command —
    the informational list and outdated subcommands included — ends with
    the target identifier as its final argument, and that identifier is
    the bare name without a truthy version and name at version with one. -/
theorem C9_target_argument (env : Env) (p : Params) (a : ApmObj)
    (hn : p.name ≠ [])
    (ha : apmInit env p.name p.version p.executable = Except.ok a) :
    (∀ cmd ∈ (mainRun env p).2, cmd.getLast? = some a.nameVersion)
    ∧ a.nameVersion = mkNameVersion p.name p.version
    ∧ (p.version = none → a.nameVersion = p.name)
    ∧ (∀ v : Str, p.version = some v → v ≠ [] →
        a.nameVersion = p.name ++ '@' :: v) := by
  obtain ⟨han, hav, hanv⟩ := apmInit_ok env p.name p.version p.executable a ha
  have hname : a.name ≠ [] := by rw [han]; exact hn
  refine ⟨?cmds, hanv, ?vnone, ?vsome⟩
  · intro cmd hcmd
    rw [mainRun_state env p a hn ha] at hcmd
    cases hs : p.state
    · rw [hs] at hcmd
      have h2 := runPresent_trace env p.checkMode a hcmd
      refine mem_spawn_list_getLast hname [[chars "list"], [chars "install"]] cmd ?m1
      simpa using h2
    · rw [hs] at hcmd
      have h2 := runAbsent_trace env p.checkMode a hcmd
      refine mem_spawn_list_getLast hname [[chars "list"], [chars "uninstall"]] cmd ?m2
      simpa using h2
    · rw [hs] at hcmd
      have h2 := runLatest_trace env p.checkMode a hcmd
      refine mem_spawn_list_getLast hname
        [[chars "list"], [chars "outdated"], [chars "install"], [chars "update"]] cmd ?m3
      simpa using h2
  · intro hv
    rw [hanv, mkNameVersion, hv]
    simp [truthyOpt]
  · intro v hv hvne
    rw [hanv, mkNameVersion, hv]
    simp [truthyOpt, hvne]

/-- Witness for C9: the list command spawned for the latest request on
    pkg ends with the bare target name. -/
theorem C9_target_argument_witness :
    (spawnCmd apmPkg [chars "list"]).getLast? = some (chars "pkg") := by
  have h := (C9_target_argument envOk pPkgLatest apmPkg (by decide) (by decide)).1
  exact h (spawnCmd apmPkg [chars "list"]) (by decide)

/-- Claim C10: the driver never spawns a mutating subcommand other than
    the one matching the requested state: for present neither update nor
    uninstall nor the outdated query is spawned; for absent neither
    install nor update nor the outdated query; for latest, uninstall is
    never spawned. -/
theorem C10_state_exclusivity (env : Env) (p : Params) (a : ApmObj)
    (hn : p.name ≠ [])
    (ha : apmInit env p.name p.version p.executable = Except.ok a) :
    (p.state = PState.present →
      spawnCmd a [chars "update"] ∉ (mainRun env p).2 ∧
      spawnCmd a [chars "uninstall"] ∉ (mainRun env p).2 ∧
      spawnCmd a [chars "outdated"] ∉ (mainRun env p).2)
    ∧ (p.state = PState.absent →
      spawnCmd a [chars "install"] ∉ (mainRun env p).2 ∧
      spawnCmd a [chars "update"] ∉ (mainRun env p).2 ∧
      spawnCmd a [chars "outdated"] ∉ (mainRun env p).2)
    ∧ (p.state = PState.latest →
      spawnCmd a [chars "uninstall"] ∉ (mainRun env p).2) := by
  have hms := mainRun_state env p a hn ha
  refine ⟨?pr, ?ab, ?la⟩
  · intro hs
    have htr : (mainRun env p).2 ⊆
        [spawnCmd a [chars "list"], spawnCmd a [chars "install"]] := by
      rw [hms, hs]
      exact runPresent_trace env p.checkMode a
    exact ⟨not_mem_spawn_pair (by decide) (by decide) htr,
           not_mem_spawn_pair (by decide) (by decide) htr,
           not_mem_spawn_pair (by decide) (by decide) htr⟩
  · intro hs
    have htr : (mainRun env p).2 ⊆
        [spawnCmd a [chars "list"], spawnCmd a [chars "uninstall"]] := by
      rw [hms, hs]
      exact runAbsent_trace env p.checkMode a
    exact ⟨not_mem_spawn_pair (by decide) (by decide) htr,
           not_mem_spawn_pair (by decide) (by decide) htr,
           not_mem_spawn_pair (by decide) (by decide) htr⟩
  · intro hs
    have htr : (mainRun env p).2 ⊆
        [spawnCmd a [chars "list"], spawnCmd a [chars "outdated"],
         spawnCmd a [chars "install"], spawnCmd a [chars "update"]] := by
      rw [hms, hs]
      exact runLatest_trace env p.checkMode a
    exact not_mem_spawn_quad (by decide) (by decide) (by decide) (by decide) htr

/-- Witness for C10: a present request for pkg never spawns the update
    command. -/
theorem C10_state_exclusivity_witness :
    spawnCmd apmPkg [chars "update"] ∉ (mainRun envOk pPkgPresent).2 :=
  ((C10_state_exclusivity envOk pPkgPresent apmPkg (by decide) (by decide)).1 rfl).1
